import Mathlib

/-!
Shallow embedding of the error module of the async-openai crate
(src/async-openai/src/error.rs): the error model (`OpenAIError`, `ApiError`),
the flexible wire shapes (`ApiErrorFlex`, `ErrorCode`, `WrappedError`), the
JSON decoding they induce under serde semantics, and the classifier
`map_deserialization_error`.

Byte sequences are modelled as `List Nat` (each entry a byte value);
`serde_json::from_slice` is modelled as a total JSON parser over bytes
followed by a serde-style field loop for the target struct, and
`String::from_utf8_lossy` as a total lossy UTF-8 decoder.
-/

namespace AsyncOpenAI

/-- The normalized API error payload (`ApiError` in error.rs, lines 31-37). -/
structure ApiError where
  message : String
  type : Option String
  param : Option String
  code : Option String
deriving DecidableEq, Repr

/-- The error enum (`OpenAIError` in error.rs, lines 4-28). External error
payloads (`reqwest::Error`, `serde_json::Error`) are represented by their
message strings, which is all the error model ever uses of them. -/
inductive OpenAIError where
  | Reqwest (msg : String)
  | ApiError (e : ApiError)
  | JSONDeserialize (errMsg : String) (body : String)
  | FileSaveError (s : String)
  | FileReadError (s : String)
  | StreamError (s : String)
  | InvalidArgument (s : String)
deriving DecidableEq, Repr

/-- Display for `ApiError` (error.rs lines 39-62): push the optional
`type`-prefixed token, the message, then optional param and code tokens,
and join with single spaces. -/
def ApiError.display (e : ApiError) : String :=
  let parts : List String := []
  let parts := match e.type with
    | some t => parts ++ [t ++ ":"]
    | none => parts
  let parts := parts ++ [e.message]
  let parts := match e.param with
    | some p => parts ++ ["(param: " ++ p ++ ")"]
    | none => parts
  let parts := match e.code with
    | some c => parts ++ ["(code: " ++ c ++ ")"]
    | none => parts
  String.intercalate " " parts

/-- Display for `OpenAIError`, generated in the source by the thiserror
derive from each variant's error attribute (error.rs lines 4-28). -/
def OpenAIError.display : OpenAIError → String
  | .Reqwest msg => "http error: " ++ msg
  | .ApiError e => e.display
  | .JSONDeserialize errMsg body =>
      "Failed to deserialize API response: " ++ errMsg ++ "\nResponse body: " ++ body
  | .FileSaveError s => "failed to save file: " ++ s
  | .FileReadError s => "failed to read file: " ++ s
  | .StreamError s => "stream failed: " ++ s
  | .InvalidArgument s => "invalid args: " ++ s

/-- Wire `code` value (`ErrorCode` in error.rs, lines 85-90): either a string
or an unsigned 16-bit integer. The `Int` payload is a `Nat`; decoding
(below) enforces the u16 range. -/
inductive ErrorCode where
  | Str (s : String)
  | Int (i : Nat)
deriving DecidableEq, Repr

/-- The `Into String` conversion for `ErrorCode` (error.rs lines 92-99):
strings pass through, integers become their decimal text. -/
def ErrorCode.intoString : ErrorCode → String
  | .Str s => s
  | .Int i => Nat.repr i

/-- Deserialization-only flexible error shape (`ApiErrorFlex` in error.rs,
lines 77-83). -/
structure ApiErrorFlex where
  message : String
  type : Option String
  param : Option String
  code : Option ErrorCode
deriving DecidableEq, Repr

/-- The `From ApiErrorFlex` conversion for `ApiError` (error.rs lines 64-73). -/
def ApiError.ofFlex (e : ApiErrorFlex) : ApiError :=
  { message := e.message
    type := e.type
    param := e.param
    code := e.code.map ErrorCode.intoString }

/-- Wrapper for the error object nested under the "error" JSON key
(`WrappedError` in error.rs, lines 101-105). -/
structure WrappedError where
  error : ApiErrorFlex
deriving DecidableEq, Repr

/-- Parsed JSON values. `numF` marks a number with a fraction or exponent
(or negative zero), which serde_json represents as a float; such a value can
never decode to a u16. -/
inductive Json where
  | null
  | bool (b : Bool)
  | num (n : Int)
  | numF
  | str (s : String)
  | arr (xs : List Json)
  | obj (kvs : List (String × Json))

/-- Whether a byte is a UTF-8 continuation byte. -/
def utf8Cont (b : Nat) : Bool := 0x80 ≤ b && b ≤ 0xBF

/-- Decode one UTF-8 scalar value from the front of the byte list, following
the validation ranges of core Rust UTF-8 decoding: returns the code point
and the number of bytes consumed, or `none` on invalid input. -/
def utf8Decode1 : List Nat → Option (Nat × Nat)
  | [] => none
  | b0 :: rest =>
    if b0 < 0x80 then
      some (b0, 1)
    else if 0xC2 ≤ b0 && b0 ≤ 0xDF then
      match rest with
      | b1 :: _ =>
        if utf8Cont b1 then some ((b0 - 0xC0) * 0x40 + (b1 - 0x80), 2) else none
      | [] => none
    else if 0xE0 ≤ b0 && b0 ≤ 0xEF then
      match rest with
      | b1 :: b2 :: _ =>
        let okB1 :=
          if b0 = 0xE0 then 0xA0 ≤ b1 && b1 ≤ 0xBF
          else if b0 = 0xED then 0x80 ≤ b1 && b1 ≤ 0x9F
          else utf8Cont b1
        if okB1 && utf8Cont b2 then
          some ((b0 - 0xE0) * 0x1000 + (b1 - 0x80) * 0x40 + (b2 - 0x80), 3)
        else none
      | _ => none
    else if 0xF0 ≤ b0 && b0 ≤ 0xF4 then
      match rest with
      | b1 :: b2 :: b3 :: _ =>
        let okB1 :=
          if b0 = 0xF0 then 0x90 ≤ b1 && b1 ≤ 0xBF
          else if b0 = 0xF4 then 0x80 ≤ b1 && b1 ≤ 0x8F
          else utf8Cont b1
        if okB1 && utf8Cont b2 && utf8Cont b3 then
          some ((b0 - 0xF0) * 0x40000 + (b1 - 0x80) * 0x1000 + (b2 - 0x80) * 0x40 + (b3 - 0x80), 4)
        else none
      | _ => none
    else none

/-- Length of the maximal subpart of an ill-formed sequence at the front of
the list (always at least 1): how many bytes `from_utf8_lossy` replaces with
a single replacement character. -/
def utf8InvalidSkip : List Nat → Nat
  | [] => 1
  | b0 :: rest =>
    if 0xE0 ≤ b0 && b0 ≤ 0xEF then
      match rest with
      | b1 :: _ =>
        let okB1 :=
          if b0 = 0xE0 then 0xA0 ≤ b1 && b1 ≤ 0xBF
          else if b0 = 0xED then 0x80 ≤ b1 && b1 ≤ 0x9F
          else utf8Cont b1
        if okB1 then 2 else 1
      | [] => 1
    else if 0xF0 ≤ b0 && b0 ≤ 0xF4 then
      match rest with
      | b1 :: b2 :: _ =>
        let okB1 :=
          if b0 = 0xF0 then 0x90 ≤ b1 && b1 ≤ 0xBF
          else if b0 = 0xF4 then 0x80 ≤ b1 && b1 ≤ 0x8F
          else utf8Cont b1
        if okB1 then (if utf8Cont b2 then 3 else 2) else 1
      | [b1] =>
        let okB1 :=
          if b0 = 0xF0 then 0x90 ≤ b1 && b1 ≤ 0xBF
          else if b0 = 0xF4 then 0x80 ≤ b1 && b1 ≤ 0x8F
          else utf8Cont b1
        if okB1 then 2 else 1
      | [] => 1
    else 1

/-- Fueled loop of the lossy UTF-8 decoder: valid sequences decode to their
scalar, ill-formed maximal subparts each become one U+FFFD. -/
def utf8LossyAux : Nat → List Nat → List Char
  | 0, _ => []
  | _, [] => []
  | fuel + 1, b :: rest =>
    match utf8Decode1 (b :: rest) with
    | some (cp, k) => Char.ofNat cp :: utf8LossyAux fuel ((b :: rest).drop k)
    | none => Char.ofNat 0xFFFD :: utf8LossyAux fuel ((b :: rest).drop (utf8InvalidSkip (b :: rest)))

/-- The model of `String::from_utf8_lossy`: total, replaces each ill-formed
maximal subpart with U+FFFD. -/
def from_utf8_lossy (bytes : List Nat) : String :=
  String.mk (utf8LossyAux bytes.length bytes)

/-- JSON whitespace bytes: space, tab, line feed, carriage return. -/
def isJsonWs (b : Nat) : Bool := b == 0x20 || b == 0x09 || b == 0x0A || b == 0x0D

/-- Drop leading JSON whitespace. -/
def skipJsonWs : List Nat → List Nat
  | b :: rest => if isJsonWs b then skipJsonWs rest else b :: rest
  | [] => []

/-- Value of one hexadecimal digit byte. -/
def hexDigit (b : Nat) : Option Nat :=
  if 0x30 ≤ b && b ≤ 0x39 then some (b - 0x30)
  else if 0x61 ≤ b && b ≤ 0x66 then some (b - 0x61 + 10)
  else if 0x41 ≤ b && b ≤ 0x46 then some (b - 0x41 + 10)
  else none

/-- Parse the body of a JSON string after the opening quote: handles the
short escapes, hex escapes with strict surrogate pairing, rejects raw
control bytes and ill-formed UTF-8, as serde_json does. -/
def parseStringBody : Nat → List Nat → List Char → Option (String × List Nat)
  | 0, _, _ => none
  | _, [], _ => none
  | fuel + 1, b :: rest, acc =>
    if b = 0x22 then some (String.mk acc.reverse, rest)
    else if b = 0x5C then
      match rest with
      | [] => none
      | e :: rest2 =>
        if e = 0x22 then parseStringBody fuel rest2 (Char.ofNat 0x22 :: acc)
        else if e = 0x5C then parseStringBody fuel rest2 (Char.ofNat 0x5C :: acc)
        else if e = 0x2F then parseStringBody fuel rest2 (Char.ofNat 0x2F :: acc)
        else if e = 0x62 then parseStringBody fuel rest2 (Char.ofNat 0x08 :: acc)
        else if e = 0x66 then parseStringBody fuel rest2 (Char.ofNat 0x0C :: acc)
        else if e = 0x6E then parseStringBody fuel rest2 (Char.ofNat 0x0A :: acc)
        else if e = 0x72 then parseStringBody fuel rest2 (Char.ofNat 0x0D :: acc)
        else if e = 0x74 then parseStringBody fuel rest2 (Char.ofNat 0x09 :: acc)
        else if e = 0x75 then
          match rest2 with
          | h1 :: h2 :: h3 :: h4 :: rest3 =>
            match hexDigit h1, hexDigit h2, hexDigit h3, hexDigit h4 with
            | some d1, some d2, some d3, some d4 =>
              let cp := ((d1 * 16 + d2) * 16 + d3) * 16 + d4
              if 0xD800 ≤ cp && cp ≤ 0xDBFF then
                match rest3 with
                | 0x5C :: 0x75 :: g1 :: g2 :: g3 :: g4 :: rest4 =>
                  match hexDigit g1, hexDigit g2, hexDigit g3, hexDigit g4 with
                  | some f1, some f2, some f3, some f4 =>
                    let cp2 := ((f1 * 16 + f2) * 16 + f3) * 16 + f4
                    if 0xDC00 ≤ cp2 && cp2 ≤ 0xDFFF then
                      parseStringBody fuel rest4
                        (Char.ofNat (0x10000 + (cp - 0xD800) * 0x400 + (cp2 - 0xDC00)) :: acc)
                    else none
                  | _, _, _, _ => none
                | _ => none
              else if 0xDC00 ≤ cp && cp ≤ 0xDFFF then none
              else parseStringBody fuel rest3 (Char.ofNat cp :: acc)
            | _, _, _, _ => none
          | _ => none
        else none
    else if b < 0x20 then none
    else if b < 0x80 then parseStringBody fuel rest (Char.ofNat b :: acc)
    else
      match utf8Decode1 (b :: rest) with
      | some (cp, k) => parseStringBody fuel ((b :: rest).drop k) (Char.ofNat cp :: acc)
      | none => none

/-- Take the leading run of decimal digit bytes. -/
def takeDigits : List Nat → List Nat × List Nat
  | b :: rest =>
    if 0x30 ≤ b && b ≤ 0x39 then
      let (ds, r) := takeDigits rest
      (b :: ds, r)
    else ([], b :: rest)
  | [] => ([], [])

/-- Numeric value of a run of decimal digit bytes. -/
def digitsToNat (ds : List Nat) : Nat :=
  ds.foldl (fun acc d => acc * 10 + (d - 0x30)) 0

/-- Parse an optional fraction part; `some true` when a fraction was read. -/
def parseFracPart : List Nat → Option (Bool × List Nat)
  | b :: r =>
    if b = 0x2E then
      let (fds, r2) := takeDigits r
      if fds = [] then none else some (true, r2)
    else some (false, b :: r)
  | [] => some (false, [])

/-- Parse an optional exponent part; `some true` when an exponent was read. -/
def parseExpPart : List Nat → Option (Bool × List Nat)
  | b :: r =>
    if b = 0x65 || b = 0x45 then
      let r2 := match r with
        | s :: r1 => if s = 0x2B || s = 0x2D then r1 else s :: r1
        | [] => []
      let (eds, r3) := takeDigits r2
      if eds = [] then none else some (true, r3)
    else some (false, b :: r)
  | [] => some (false, [])

/-- Parse a JSON number. Integer syntax yields `Json.num`; any number with
a fraction or exponent, or negative zero, yields `Json.numF` (serde_json
holds those as floats, which never decode to an integer type). -/
def parseNumber (bytes : List Nat) : Option (Json × List Nat) :=
  let (neg, s1) := match bytes with
    | 0x2D :: r => (true, r)
    | _ => (false, bytes)
  let (intDs, s2) := takeDigits s1
  match intDs with
  | [] => none
  | b :: tl =>
    if b = 0x30 && tl ≠ [] then none
    else
      match parseFracPart s2 with
      | none => none
      | some (hasFrac, s3) =>
        match parseExpPart s3 with
        | none => none
        | some (hasExp, s4) =>
          if hasFrac || hasExp then some (Json.numF, s4)
          else
            let n := digitsToNat intDs
            if neg then
              if n = 0 then some (Json.numF, s4)
              else some (Json.num (-(n : Int)), s4)
            else some (Json.num (n : Int), s4)

mutual

/-- Parse one JSON value; the input must start with the value's first byte
(callers skip whitespace). -/
def parseValue : Nat → List Nat → Option (Json × List Nat)
  | 0, _ => none
  | fuel + 1, bytes =>
    match bytes with
    | [] => none
    | b :: rest =>
      if b = 0x6E then
        match rest with
        | 0x75 :: 0x6C :: 0x6C :: r => some (Json.null, r)
        | _ => none
      else if b = 0x74 then
        match rest with
        | 0x72 :: 0x75 :: 0x65 :: r => some (Json.bool true, r)
        | _ => none
      else if b = 0x66 then
        match rest with
        | 0x61 :: 0x6C :: 0x73 :: 0x65 :: r => some (Json.bool false, r)
        | _ => none
      else if b = 0x22 then
        match parseStringBody (rest.length + 1) rest [] with
        | some (s, r) => some (Json.str s, r)
        | none => none
      else if b = 0x5B then
        match skipJsonWs rest with
        | 0x5D :: r => some (Json.arr [], r)
        | r2 => parseArrayItems fuel r2 []
      else if b = 0x7B then
        match skipJsonWs rest with
        | 0x7D :: r => some (Json.obj [], r)
        | r2 => parseObjectItems fuel r2 []
      else if b = 0x2D || (0x30 ≤ b && b ≤ 0x39) then
        parseNumber (b :: rest)
      else none

/-- Parse the comma-separated items of a JSON array after the opening
bracket and any leading whitespace. -/
def parseArrayItems : Nat → List Nat → List Json → Option (Json × List Nat)
  | 0, _, _ => none
  | fuel + 1, bytes, acc =>
    match parseValue fuel bytes with
    | some (v, r) =>
      match skipJsonWs r with
      | 0x2C :: r2 => parseArrayItems fuel (skipJsonWs r2) (v :: acc)
      | 0x5D :: r2 => some (Json.arr (v :: acc).reverse, r2)
      | _ => none
    | none => none

/-- Parse the comma-separated members of a JSON object after the opening
brace and any leading whitespace. -/
def parseObjectItems : Nat → List Nat → List (String × Json) → Option (Json × List Nat)
  | 0, _, _ => none
  | fuel + 1, bytes, acc =>
    match bytes with
    | 0x22 :: rest =>
      match parseStringBody (rest.length + 1) rest [] with
      | some (k, r) =>
        match skipJsonWs r with
        | 0x3A :: r2 =>
          match parseValue fuel (skipJsonWs r2) with
          | some (v, r3) =>
            match skipJsonWs r3 with
            | 0x2C :: r4 => parseObjectItems fuel (skipJsonWs r4) ((k, v) :: acc)
            | 0x7D :: r4 => some (Json.obj ((k, v) :: acc).reverse, r4)
            | _ => none
          | none => none
        | _ => none
      | none => none
    | _ => none

end

/-- The model of `serde_json` byte-level parsing as used by `from_slice`:
parse exactly one JSON value with nothing but whitespace around it. -/
def parseJson (bytes : List Nat) : Option Json :=
  match parseValue (2 * bytes.length + 2) (skipJsonWs bytes) with
  | some (v, rest) => if skipJsonWs rest = [] then some v else none
  | none => none

/-- serde decoding of a required `String` field value. -/
def decodeString : Json → Option String
  | .str s => some s
  | _ => none

/-- serde decoding of an `Option String` field value: JSON null is `none`. -/
def decodeOptString : Json → Option (Option String)
  | .null => some none
  | .str s => some (some s)
  | _ => none

/-- serde decoding of the untagged `ErrorCode`: a string, else an unsigned
integer in the u16 range. -/
def decodeErrorCode : Json → Option ErrorCode
  | .str s => some (.Str s)
  | .num n => if 0 ≤ n && n ≤ 65535 then some (.Int n.toNat) else none
  | _ => none

/-- serde decoding of an `Option ErrorCode` field value. -/
def decodeOptErrorCode : Json → Option (Option ErrorCode)
  | .null => some none
  | j => (decodeErrorCode j).map some

/-- Field-loop state for deserializing `ApiErrorFlex`: the outer `Option`
marks whether the field has been seen (serde reports a duplicate-field
error on a second occurrence). -/
structure FlexFields where
  message : Option String
  type : Option (Option String)
  param : Option (Option String)
  code : Option (Option ErrorCode)

/-- The serde-derived field loop for `ApiErrorFlex`: each known field
decodes once (a duplicate is an error), unknown fields are ignored, and at
the end `message` is required while the `Option` fields default to `none`. -/
def decodeFlexFields : List (String × Json) → FlexFields → Option ApiErrorFlex
  | [], st =>
    match st.message with
    | some m => some ⟨m, st.type.getD none, st.param.getD none, st.code.getD none⟩
    | none => none
  | (k, v) :: rest, st =>
    if k = "message" then
      match st.message, decodeString v with
      | none, some m => decodeFlexFields rest { st with message := some m }
      | _, _ => none
    else if k = "type" then
      match st.type, decodeOptString v with
      | none, some t => decodeFlexFields rest { st with type := some t }
      | _, _ => none
    else if k = "param" then
      match st.param, decodeOptString v with
      | none, some p => decodeFlexFields rest { st with param := some p }
      | _, _ => none
    else if k = "code" then
      match st.code, decodeOptErrorCode v with
      | none, some c => decodeFlexFields rest { st with code := some c }
      | _, _ => none
    else decodeFlexFields rest st

/-- serde deserialization of `ApiErrorFlex` from a JSON value: the value
must be an object. -/
def decodeApiErrorFlex : Json → Option ApiErrorFlex
  | .obj kvs => decodeFlexFields kvs ⟨none, none, none, none⟩
  | _ => none

/-- The serde-derived field loop for `WrappedError`: the required `error`
field decodes as `ApiErrorFlex`, duplicates are an error, unknown fields
are ignored. -/
def decodeWrappedFields : List (String × Json) → Option ApiErrorFlex → Option WrappedError
  | [], st =>
    match st with
    | some e => some ⟨e⟩
    | none => none
  | (k, v) :: rest, st =>
    if k = "error" then
      match st, decodeApiErrorFlex v with
      | none, some e => decodeWrappedFields rest (some e)
      | _, _ => none
    else decodeWrappedFields rest st

/-- serde deserialization of `WrappedError` from a JSON value. -/
def decodeWrappedError : Json → Option WrappedError
  | .obj kvs => decodeWrappedFields kvs none
  | _ => none

/-- Model of `serde_json::from_slice::<WrappedError>`. -/
def fromSliceWrapped (bytes : List Nat) : Option WrappedError :=
  (parseJson bytes).bind decodeWrappedError

/-- Model of `serde_json::from_slice::<ApiErrorFlex>`. -/
def fromSliceFlex (bytes : List Nat) : Option ApiErrorFlex :=
  (parseJson bytes).bind decodeApiErrorFlex

/-- The classifier `map_deserialization_error` (error.rs lines 109-131).
The `tracing` log record emitted on the fallback branch is a side effect
outside the value model and is not represented; it does not affect the
returned value. -/
def map_deserialization_error (err : String) (bytes : List Nat) : OpenAIError :=
  let response_text := from_utf8_lossy bytes
  match fromSliceWrapped bytes with
  | some wrapped_error => .ApiError (ApiError.ofFlex wrapped_error.error)
  | none =>
    match fromSliceFlex bytes with
    | some api_error => .ApiError (ApiError.ofFlex api_error)
    | none => .JSONDeserialize err response_text

/-- Bytes of an ASCII string (every character below 0x80), used to write
concrete byte-sequence inputs readably. -/
def strBytes (s : String) : List Nat := s.data.map Char.toNat

/-- A concrete body that deserializes under both the wrapped and the flat
shape: it has an "error" envelope and a top-level "message" field. -/
def dualShapeBytes : List Nat :=
  strBytes "\x7b\"error\":\x7b\"message\":\"a\"\x7d,\"message\":\"b\"\x7d"

/-- Number of members of an object association list with the given key. -/
def countKey (key : String) : List (String × Json) → Nat
  | [] => 0
  | (k, _) :: rest => (if k = key then 1 else 0) + countKey key rest

/-- A concrete flat body with an unknown top-level key, used as the C9
witness input. -/
def extraKeysBytes : List Nat :=
  strBytes "\x7b\"message\":\"m\",\"extra\":[1,true,null],\"code\":404\x7d"

/-- The object members `extraKeysBytes` parses to. -/
def extraKeysKvs : List (String × Json) :=
  [("message", .str "m"), ("extra", .arr [.num 1, .bool true, .null]), ("code", .num 404)]

/-- Optional-field hypothesis triple for an object member list, restricted
to the tail when the head member has a different key. -/
theorem fieldTripleTail (key k : String) (v : Json) (tl : List (String × Json))
    (check : Json → Bool) (slot : Bool) (hne : k ≠ key)
    (h : countKey key ((k, v) :: tl) ≤ 1 ∧
      (slot = true → countKey key ((k, v) :: tl) = 0) ∧
      ∀ p ∈ (k, v) :: tl, p.1 = key → check p.2 = true) :
    countKey key tl ≤ 1 ∧ (slot = true → countKey key tl = 0) ∧
      ∀ p ∈ tl, p.1 = key → check p.2 = true := by
  refine ⟨?_, fun hs => ?_, fun q hq hkey => h.2.2 q (List.mem_cons_of_mem _ hq) hkey⟩
  · have h1 := h.1
    simpa [countKey, hne] using h1
  · have h1 := h.2.1 hs
    simpa [countKey, hne] using h1

/-- Optional-field hypothesis triple when the head member has the key
itself: the slot is still unset, the tail has no further occurrence, and
the head value is decodable. -/
theorem fieldTripleHead (key : String) (v : Json) (tl : List (String × Json))
    (check : Json → Bool) (slot : Bool)
    (h : countKey key ((key, v) :: tl) ≤ 1 ∧
      (slot = true → countKey key ((key, v) :: tl) = 0) ∧
      ∀ p ∈ (key, v) :: tl, p.1 = key → check p.2 = true) :
    slot = false ∧ countKey key tl = 0 ∧ check v = true := by
  have hcnt : countKey key ((key, v) :: tl) = 1 + countKey key tl := by simp [countKey]
  refine ⟨?_, ?_, h.2.2 (key, v) (by simp) rfl⟩
  · cases hs : slot with
    | false => rfl
    | true =>
      have h1 := h.2.1 hs
      rw [hcnt] at h1
      omega
  · have h1 := h.1
    rw [hcnt] at h1
    omega

/-- Message-field hypothesis for an object member list, restricted to the
tail when the head member has a different key. -/
theorem msgHypTail (k : String) (v : Json) (tl : List (String × Json))
    (slot : Option String) (hne : k ≠ "message")
    (h : (slot.isSome = true ∧ countKey "message" ((k, v) :: tl) = 0) ∨
      (slot = none ∧ countKey "message" ((k, v) :: tl) = 1 ∧
        ∀ p ∈ (k, v) :: tl, p.1 = "message" → (decodeString p.2).isSome = true)) :
    (slot.isSome = true ∧ countKey "message" tl = 0) ∨
      (slot = none ∧ countKey "message" tl = 1 ∧
        ∀ p ∈ tl, p.1 = "message" → (decodeString p.2).isSome = true) := by
  rcases h with ⟨ha, hb⟩ | ⟨ha, hb, hval⟩
  · exact Or.inl ⟨ha, by simpa [countKey, hne] using hb⟩
  · exact Or.inr ⟨ha, by simpa [countKey, hne] using hb,
      fun q hq hkey => hval q (List.mem_cons_of_mem _ hq) hkey⟩

/-- Message-field hypothesis when the head member is the message itself:
the slot is unset, the tail has no further message, and the value decodes. -/
theorem msgHypHead (v : Json) (tl : List (String × Json)) (slot : Option String)
    (h : (slot.isSome = true ∧ countKey "message" (("message", v) :: tl) = 0) ∨
      (slot = none ∧ countKey "message" (("message", v) :: tl) = 1 ∧
        ∀ p ∈ ("message", v) :: tl, p.1 = "message" → (decodeString p.2).isSome = true)) :
    slot = none ∧ countKey "message" tl = 0 ∧ (decodeString v).isSome = true := by
  have hcnt : countKey "message" (("message", v) :: tl) = 1 + countKey "message" tl := by
    simp [countKey]
  rcases h with ⟨_, hb⟩ | ⟨ha, hb, hval⟩
  · rw [hcnt] at hb
    omega
  · rw [hcnt] at hb
    exact ⟨ha, by omega, hval ("message", v) (by simp) rfl⟩

/-- The serde field loop for `ApiErrorFlex` succeeds on any member list in
which `message` occurs exactly once with a decodable value, each other
known field occurs at most once with a decodable value (and is not already
set in the state), and arbitrary unknown members may appear anywhere. -/
theorem decodeFlexFields_isSome (kvs : List (String × Json)) (st : FlexFields)
    (hm : (st.message.isSome = true ∧ countKey "message" kvs = 0) ∨
      (st.message = none ∧ countKey "message" kvs = 1 ∧
        ∀ p ∈ kvs, p.1 = "message" → (decodeString p.2).isSome = true))
    (ht : countKey "type" kvs ≤ 1 ∧ (st.type.isSome = true → countKey "type" kvs = 0) ∧
      ∀ p ∈ kvs, p.1 = "type" → (decodeOptString p.2).isSome = true)
    (hp : countKey "param" kvs ≤ 1 ∧ (st.param.isSome = true → countKey "param" kvs = 0) ∧
      ∀ p ∈ kvs, p.1 = "param" → (decodeOptString p.2).isSome = true)
    (hc : countKey "code" kvs ≤ 1 ∧ (st.code.isSome = true → countKey "code" kvs = 0) ∧
      ∀ p ∈ kvs, p.1 = "code" → (decodeOptErrorCode p.2).isSome = true) :
    (decodeFlexFields kvs st).isSome = true := by
  induction kvs generalizing st with
  | nil =>
    rcases hm with ⟨hsome, _⟩ | ⟨_, hcnt, _⟩
    · obtain ⟨m, hmv⟩ := Option.isSome_iff_exists.mp hsome
      simp [decodeFlexFields, hmv]
    · simp [countKey] at hcnt
  | cons hd tl ih =>
    obtain ⟨k, v⟩ := hd
    by_cases hk1 : k = "message"
    · subst hk1
      obtain ⟨hnone, h0, hv⟩ := msgHypHead v tl st.message hm
      obtain ⟨m, hmv⟩ := Option.isSome_iff_exists.mp hv
      simp [decodeFlexFields, hnone, hmv]
      exact ih { st with message := some m } (Or.inl ⟨rfl, h0⟩)
        (fieldTripleTail "type" "message" v tl
          (fun j => (decodeOptString j).isSome) st.type.isSome (by decide) ht)
        (fieldTripleTail "param" "message" v tl
          (fun j => (decodeOptString j).isSome) st.param.isSome (by decide) hp)
        (fieldTripleTail "code" "message" v tl
          (fun j => (decodeOptErrorCode j).isSome) st.code.isSome (by decide) hc)
    · by_cases hk2 : k = "type"
      · subst hk2
        obtain ⟨hslot, h0, hv⟩ := fieldTripleHead "type" v tl
          (fun j => (decodeOptString j).isSome) st.type.isSome ht
        have hstnone : st.type = none := by
          cases hst : st.type with
          | none => rfl
          | some t0 =>
            rw [hst] at hslot
            simp at hslot
        obtain ⟨t1, htv⟩ := Option.isSome_iff_exists.mp hv
        simp [decodeFlexFields, hk1, hstnone, htv]
        exact ih { st with type := some t1 }
          (msgHypTail "type" v tl st.message (by decide) hm)
          ⟨by omega, fun _ => h0,
            fun q hq hkey => ht.2.2 q (List.mem_cons_of_mem _ hq) hkey⟩
          (fieldTripleTail "param" "type" v tl
            (fun j => (decodeOptString j).isSome) st.param.isSome (by decide) hp)
          (fieldTripleTail "code" "type" v tl
            (fun j => (decodeOptErrorCode j).isSome) st.code.isSome (by decide) hc)
      · by_cases hk3 : k = "param"
        · subst hk3
          obtain ⟨hslot, h0, hv⟩ := fieldTripleHead "param" v tl
            (fun j => (decodeOptString j).isSome) st.param.isSome hp
          have hstnone : st.param = none := by
            cases hst : st.param with
            | none => rfl
            | some p0 =>
              rw [hst] at hslot
              simp at hslot
          obtain ⟨p1, hpv⟩ := Option.isSome_iff_exists.mp hv
          simp [decodeFlexFields, hk1, hk2, hstnone, hpv]
          exact ih { st with param := some p1 }
            (msgHypTail "param" v tl st.message (by decide) hm)
            (fieldTripleTail "type" "param" v tl
              (fun j => (decodeOptString j).isSome) st.type.isSome (by decide) ht)
            ⟨by omega, fun _ => h0,
              fun q hq hkey => hp.2.2 q (List.mem_cons_of_mem _ hq) hkey⟩
            (fieldTripleTail "code" "param" v tl
              (fun j => (decodeOptErrorCode j).isSome) st.code.isSome (by decide) hc)
        · by_cases hk4 : k = "code"
          · subst hk4
            obtain ⟨hslot, h0, hv⟩ := fieldTripleHead "code" v tl
              (fun j => (decodeOptErrorCode j).isSome) st.code.isSome hc
            have hstnone : st.code = none := by
              cases hst : st.code with
              | none => rfl
              | some c0 =>
                rw [hst] at hslot
                simp at hslot
            obtain ⟨c1, hcv⟩ := Option.isSome_iff_exists.mp hv
            simp [decodeFlexFields, hk1, hk2, hk3, hstnone, hcv]
            exact ih { st with code := some c1 }
              (msgHypTail "code" v tl st.message (by decide) hm)
              (fieldTripleTail "type" "code" v tl
                (fun j => (decodeOptString j).isSome) st.type.isSome (by decide) ht)
              (fieldTripleTail "param" "code" v tl
                (fun j => (decodeOptString j).isSome) st.param.isSome (by decide) hp)
              ⟨by omega, fun _ => h0,
                fun q hq hkey => hc.2.2 q (List.mem_cons_of_mem _ hq) hkey⟩
          · simp [decodeFlexFields, hk1, hk2, hk3, hk4]
            exact ih st
              (msgHypTail k v tl st.message hk1 hm)
              (fieldTripleTail "type" k v tl
                (fun j => (decodeOptString j).isSome) st.type.isSome hk2 ht)
              (fieldTripleTail "param" k v tl
                (fun j => (decodeOptString j).isSome) st.param.isSome hk3 hp)
              (fieldTripleTail "code" k v tl
                (fun j => (decodeOptErrorCode j).isSome) st.code.isSome hk4 hc)

/-- C1: classification follows a strict ordered fallback in which the first
success wins: a body that deserializes as the wrapped envelope yields
ApiError built from the normalized inner error (the flat parse is never
consulted), and only if the wrapped parse fails does a successful flat
parse yield ApiError from the flat object. -/
theorem c1_ordered_fallback (err : String) (bytes : List Nat) :
    (∀ w, fromSliceWrapped bytes = some w →
      map_deserialization_error err bytes = .ApiError (ApiError.ofFlex w.error)) ∧
    (fromSliceWrapped bytes = none →
      ∀ a, fromSliceFlex bytes = some a →
        map_deserialization_error err bytes = .ApiError (ApiError.ofFlex a)) := by
  refine ⟨fun w hw => ?_, fun hw a ha => ?_⟩
  · simp [map_deserialization_error, hw]
  · simp [map_deserialization_error, hw, ha]

/-- Witness for C1: a concrete wrapped body takes the first branch and a
concrete flat body takes the second. -/
theorem c1_ordered_fallback_witness :
    map_deserialization_error "e" (strBytes "\x7b\"error\":\x7b\"message\":\"a\"\x7d\x7d") =
      .ApiError ⟨"a", none, none, none⟩ ∧
    map_deserialization_error "e" (strBytes "\x7b\"message\":\"b\"\x7d") =
      .ApiError ⟨"b", none, none, none⟩ :=
  ⟨(c1_ordered_fallback "e" (strBytes "\x7b\"error\":\x7b\"message\":\"a\"\x7d\x7d")).1
      ⟨⟨"a", none, none, none⟩⟩ rfl,
   (c1_ordered_fallback "e" (strBytes "\x7b\"message\":\"b\"\x7d")).2
      rfl ⟨"b", none, none, none⟩ rfl⟩

/-- C2: code normalization maps a wire string code through unchanged and a
wire integer code in the u16 range to its decimal text, and the resulting
ApiError carries exactly that canonical string. -/
theorem c2_code_normalization :
    (∀ s, ErrorCode.intoString (.Str s) = s) ∧
    (∀ n : Nat, n ≤ 65535 → ErrorCode.intoString (.Int n) = Nat.repr n) ∧
    (∀ n : Int, 0 ≤ n → n ≤ 65535 → decodeErrorCode (.num n) = some (.Int n.toNat)) ∧
    (∀ fx : ApiErrorFlex, ∀ s, fx.code = some (.Str s) →
      (ApiError.ofFlex fx).code = some s) ∧
    (∀ fx : ApiErrorFlex, ∀ n, fx.code = some (.Int n) →
      (ApiError.ofFlex fx).code = some (Nat.repr n)) := by
  refine ⟨fun s => rfl, fun n _ => rfl, fun n h0 h1 => ?_, fun fx s h => ?_, fun fx n h => ?_⟩
  · simp [decodeErrorCode, h0, h1]
  · simp [ApiError.ofFlex, h, ErrorCode.intoString]
  · simp [ApiError.ofFlex, h, ErrorCode.intoString]

/-- Witness for C2 at concrete codes: a string code passes through and the
integer 429 becomes the text 429. -/
theorem c2_code_normalization_witness :
    ErrorCode.intoString (.Str "insufficient_quota") = "insufficient_quota" ∧
    ErrorCode.intoString (.Int 429) = "429" ∧
    decodeErrorCode (.num 429) = some (.Int 429) ∧
    (ApiError.ofFlex ⟨"m", none, none, some (.Str "400")⟩).code = some "400" ∧
    (ApiError.ofFlex ⟨"m", none, none, some (.Int 429)⟩).code = some "429" :=
  ⟨c2_code_normalization.1 "insufficient_quota",
   c2_code_normalization.2.1 429 (by omega),
   c2_code_normalization.2.2.1 429 (by omega) (by omega),
   c2_code_normalization.2.2.2.1 ⟨"m", none, none, some (.Str "400")⟩ "400" rfl,
   c2_code_normalization.2.2.2.2 ⟨"m", none, none, some (.Int 429)⟩ 429 rfl⟩

/-- C3: when a body deserializes as neither the wrapped nor the flat shape,
the classifier returns the DeserializationError variant carrying the
original decode error and the lossy UTF-8 decoding of the input bytes. -/
theorem c3_fallback_preserves_body (err : String) (bytes : List Nat)
    (hw : fromSliceWrapped bytes = none) (hf : fromSliceFlex bytes = none) :
    map_deserialization_error err bytes =
      .JSONDeserialize err (from_utf8_lossy bytes) := by
  simp [map_deserialization_error, hw, hf]

/-- Witness for C3 at a body that is not JSON at all: the preserved text is
the lossy decoding of the bytes. -/
theorem c3_fallback_preserves_body_witness :
    map_deserialization_error "boom" (strBytes "not json at all") =
      .JSONDeserialize "boom" (from_utf8_lossy (strBytes "not json at all")) ∧
    from_utf8_lossy (strBytes "not json at all") = "not json at all" :=
  ⟨c3_fallback_preserves_body "boom" (strBytes "not json at all") rfl rfl, rfl⟩

/-- C4: the classifier is total: every input pair produces exactly one
result, which is either an ApiError or the DeserializationError carrying
the original decode error and the lossy decoding of the bytes. -/
theorem c4_classifier_total (err : String) (bytes : List Nat) :
    (∃ d, map_deserialization_error err bytes = .ApiError d) ∨
      map_deserialization_error err bytes =
        .JSONDeserialize err (from_utf8_lossy bytes) := by
  rcases hw : fromSliceWrapped bytes with _ | w
  · rcases hf : fromSliceFlex bytes with _ | a
    · exact Or.inr (by simp [map_deserialization_error, hw, hf])
    · exact Or.inl ⟨ApiError.ofFlex a, by simp [map_deserialization_error, hw, hf]⟩
  · exact Or.inl ⟨ApiError.ofFlex w.error, by simp [map_deserialization_error, hw]⟩

/-- C5: the rendering of an ApiError is the space-join of exactly the
type-colon token when present, the message, the param token when present
and the code token when present; with only a message it is the message
itself, and with all four fields of the example it is the exact example
line. -/
theorem c5_display_format :
    (∀ m t p c, ApiError.display ⟨m, t, p, c⟩ =
      String.intercalate " "
        ((t.map fun k => k ++ ":").toList ++ [m] ++
          (p.map fun x => "(param: " ++ x ++ ")").toList ++
          (c.map fun x => "(code: " ++ x ++ ")").toList)) ∧
    (∀ m, ApiError.display ⟨m, none, none, none⟩ = m) ∧
    ApiError.display
        ⟨"Rate limit exceeded", some "rate_limit_exceeded", some "requests", some "429"⟩ =
      "rate_limit_exceeded: Rate limit exceeded (param: requests) (code: 429)" := by
  refine ⟨fun m t p c => ?_, fun m => rfl, rfl⟩
  cases t <;> cases p <;> cases c <;> rfl

/-- C6 counterexample: a body holding both an error envelope and a
top-level message deserializes under both shapes at once, so the two shape
parsers are not mutually exclusive by construction. -/
theorem c6_counterexample :
    (fromSliceWrapped dualShapeBytes).isSome = true ∧
    (fromSliceFlex dualShapeBytes).isSome = true :=
  ⟨rfl, rfl⟩

/-- C6 amended: a byte sequence can match both the wrapped and the flat
shape (both parsers ignore unknown keys), but classification stays
unambiguous because the wrapped shape is attempted first, so wrapped-shape
input never falls through to flat-shape parsing. -/
theorem c6_amended_order_disambiguates (err : String) (bytes : List Nat) :
    ((fromSliceWrapped dualShapeBytes).isSome = true ∧
      (fromSliceFlex dualShapeBytes).isSome = true) ∧
    ∀ w, fromSliceWrapped bytes = some w →
      map_deserialization_error err bytes = .ApiError (ApiError.ofFlex w.error) := by
  refine ⟨⟨rfl, rfl⟩, fun w hw => ?_⟩
  simp [map_deserialization_error, hw]

/-- Witness for the amended C6: at the dual-shape body the wrapped parse
wins and the nested message is the one kept. -/
theorem c6_amended_order_disambiguates_witness :
    map_deserialization_error "x" dualShapeBytes = .ApiError ⟨"a", none, none, none⟩ :=
  (c6_amended_order_disambiguates "x" dualShapeBytes).2 ⟨⟨"a", none, none, none⟩⟩ rfl

/-- C7 counterexample: the transport variant does not render as exactly the
underlying message: the model prefixes it. -/
theorem c7_counterexample :
    OpenAIError.display (.Reqwest "connection reset") ≠ "connection reset" := by
  decide

/-- C7 amended: the transport variant renders as the fixed prefix
http-error followed by the underlying transport error message. -/
theorem c7_amended_transport_display (s : String) :
    OpenAIError.display (.Reqwest s) = "http error: " ++ s := rfl

/-- C8: the DeserializationError variant renders as the fixed prefix, the
decode error message, a newline, the response-body label, and the preserved
body text. -/
theorem c8_deserialization_display (e t : String) :
    OpenAIError.display (.JSONDeserialize e t) =
      "Failed to deserialize API response: " ++ e ++ "\nResponse body: " ++ t := rfl

/-- C9: the flat parse tolerates unknown keys: a JSON object body whose
message member occurs once with a string value and whose type, param and
code members occur at most once with valid values classifies as ApiError
regardless of any additional members. -/
theorem c9_unknown_keys_tolerated (err : String) (bytes : List Nat)
    (kvs : List (String × Json))
    (hparse : parseJson bytes = some (.obj kvs))
    (h1 : countKey "message" kvs = 1)
    (h2 : kvs.all (fun p => p.1 != "message" || (decodeString p.2).isSome) = true)
    (h3 : countKey "type" kvs ≤ 1)
    (h4 : kvs.all (fun p => p.1 != "type" || (decodeOptString p.2).isSome) = true)
    (h5 : countKey "param" kvs ≤ 1)
    (h6 : kvs.all (fun p => p.1 != "param" || (decodeOptString p.2).isSome) = true)
    (h7 : countKey "code" kvs ≤ 1)
    (h8 : kvs.all (fun p => p.1 != "code" || (decodeOptErrorCode p.2).isSome) = true) :
    ∃ d, map_deserialization_error err bytes = .ApiError d := by
  have hall : ∀ (key : String) (f : Json → Bool),
      kvs.all (fun p => p.1 != key || f p.2) = true →
      ∀ p ∈ kvs, p.1 = key → f p.2 = true := by
    intro key f hf p hpmem hkey
    have := List.all_eq_true.mp hf p hpmem
    simpa [hkey] using this
  rcases hw : fromSliceWrapped bytes with _ | w
  · have hflex : (decodeFlexFields kvs ⟨none, none, none, none⟩).isSome = true :=
      decodeFlexFields_isSome kvs ⟨none, none, none, none⟩
        (Or.inr ⟨rfl, h1, hall "message" (fun j => (decodeString j).isSome) h2⟩)
        ⟨h3, fun h => by simp at h, hall "type" (fun j => (decodeOptString j).isSome) h4⟩
        ⟨h5, fun h => by simp at h, hall "param" (fun j => (decodeOptString j).isSome) h6⟩
        ⟨h7, fun h => by simp at h, hall "code" (fun j => (decodeOptErrorCode j).isSome) h8⟩
    obtain ⟨a, ha⟩ := Option.isSome_iff_exists.mp hflex
    have hf : fromSliceFlex bytes = some a := by
      simp [fromSliceFlex, hparse, decodeApiErrorFlex, ha]
    exact ⟨ApiError.ofFlex a, by simp [map_deserialization_error, hw, hf]⟩
  · exact ⟨ApiError.ofFlex w.error, by simp [map_deserialization_error, hw]⟩

/-- Witness for C9 at a concrete flat body with an unknown extra member. -/
theorem c9_unknown_keys_tolerated_witness :
    ∃ d, map_deserialization_error "e" extraKeysBytes = .ApiError d :=
  c9_unknown_keys_tolerated "e" extraKeysBytes extraKeysKvs rfl
    (by decide) (by decide) (by decide) (by decide)
    (by decide) (by decide) (by decide) (by decide)

/-- C10: when a body deserializes under both shapes at once, classification
returns ApiError built from the nested error object and the top-level flat
fields are discarded. -/
theorem c10_wrapped_fields_win (err : String) (bytes : List Nat)
    (w : WrappedError) (a : ApiErrorFlex)
    (hw : fromSliceWrapped bytes = some w) (hf : fromSliceFlex bytes = some a) :
    map_deserialization_error err bytes = .ApiError (ApiError.ofFlex w.error) := by
  simp [map_deserialization_error, hw]

/-- Witness for C10: at the dual-shape body the nested message is kept and
the top-level one is discarded. -/
theorem c10_wrapped_fields_win_witness :
    map_deserialization_error "e" dualShapeBytes = .ApiError ⟨"a", none, none, none⟩ :=
  c10_wrapped_fields_win "e" dualShapeBytes
    ⟨⟨"a", none, none, none⟩⟩ ⟨"b", none, none, none⟩ rfl rfl

end AsyncOpenAI
